import Mathlib

/-!
Verification of the calendrical and layout logic of the Scribus monthly
calendar script (MonthlyCalendar.py).  Python integers are embedded as
`Int`; Python's `%` and `//` on non-negative operands coincide with
`Int.emod` / `Int.ediv` (for any operands Python's `%` with a positive
modulus is non-negative, matching `Int.emod`).  `datetime.date` is
embedded as a triple of integers together with the proleptic Gregorian
ordinal arithmetic that CPython's `datetime` module implements.
-/

/-- Python `calendar.isleap(y)`: `y % 4 == 0 and (y % 100 != 0 or y % 400 == 0)`. -/
def isLeap (y : Int) : Prop :=
  y % 4 = 0 ∧ (¬ y % 100 = 0 ∨ y % 400 = 0)

instance (y : Int) : Decidable (isLeap y) := by
  unfold isLeap; infer_instance

/-- Days in a month of the proleptic Gregorian calendar
(CPython `datetime._days_in_month`). -/
def daysInMonth (y m : Int) : Int :=
  if m = 1 then 31
  else if m = 2 then (if isLeap y then 29 else 28)
  else if m = 3 then 31
  else if m = 4 then 30
  else if m = 5 then 31
  else if m = 6 then 30
  else if m = 7 then 31
  else if m = 8 then 31
  else if m = 9 then 30
  else if m = 10 then 31
  else if m = 11 then 30
  else if m = 12 then 31
  else 0

/-- Days in year `y` strictly before month `m`
(CPython `datetime._days_before_month`). -/
def daysBeforeMonth (y m : Int) : Int :=
  let l : Int := if isLeap y then 1 else 0
  if m = 1 then 0
  else if m = 2 then 31
  else if m = 3 then 59 + l
  else if m = 4 then 90 + l
  else if m = 5 then 120 + l
  else if m = 6 then 151 + l
  else if m = 7 then 181 + l
  else if m = 8 then 212 + l
  else if m = 9 then 243 + l
  else if m = 10 then 273 + l
  else if m = 11 then 304 + l
  else if m = 12 then 334 + l
  else 0

/-- Days before January 1 of year `y`
(CPython `datetime._days_before_year`). -/
def daysBeforeYear (y : Int) : Int :=
  365 * (y - 1) + (y - 1) / 4 - (y - 1) / 100 + (y - 1) / 400

/-- `datetime.date` as a plain integer triple. -/
structure Date where
  year : Int
  month : Int
  day : Int
deriving DecidableEq, Repr

/-- The validity condition `datetime.date(y, m, d)` checks (upper year
bound elided). -/
def validDate (dt : Date) : Prop :=
  1 ≤ dt.year ∧ 1 ≤ dt.month ∧ dt.month ≤ 12 ∧
    1 ≤ dt.day ∧ dt.day ≤ daysInMonth dt.year dt.month

instance (dt : Date) : Decidable (validDate dt) := by
  unfold validDate; infer_instance

/-- CPython `datetime.date.toordinal()`. -/
def toOrdinal (dt : Date) : Int :=
  daysBeforeYear dt.year + daysBeforeMonth dt.year dt.month + dt.day

/-- CPython `datetime.date.weekday()` = `(toordinal() + 6) % 7`, Monday = 0. -/
def pyWeekday (y m d : Int) : Int :=
  (toOrdinal ⟨y, m, d⟩ + 6) % 7

/-- Python `calendar.monthrange(year, month)`: weekday of day 1 and the
number of days of the month. -/
def monthrange (y m : Int) : Int × Int :=
  (pyWeekday y m 1, daysInMonth y m)

/-- `calcHolidays.calcEaster` (Butcher's algorithm); returns the
`(year, month, day)` triple handed to `datetime.date`. -/
def calcEaster (year : Int) : Int × Int × Int :=
  let a := year % 19
  let b := year / 100
  let c := year % 100
  let d := (19 * a + b - b / 4 - ((b - (b + 8) / 25 + 1) / 3) + 15) % 30
  let e := (32 + 2 * (b % 4) + 2 * (c / 4) - d - (c % 4)) % 7
  let f := d + e - 7 * ((a + 11 * d + 22 * e) / 451) + 114
  (year, f / 31, f % 31 + 1)

/-- The intermediate `e` of `calcHolidays.calcEasterO` for a given year. -/
def easterOE (year : Int) : Int :=
  (year % 4 * 2 + year % 7 * 4 - (year % 19 * 19 + 15) % 30 + 34) % 7
    + (year % 19 * 19 + 15) % 30 + 127

/-- `calcHolidays.calcEasterO` (Meeus Julian algorithm).  Because of the
module-wide `from __future__ import division`, `m = e / 31` is a float;
for the integers `e` that occur (0 ≤ e ≤ 162) the comparison `m > 4` is
exactly `e > 124` (124/31 = 4 is computed exactly in IEEE double and the
quotient is correctly rounded), and `int(m)` is `e // 31`.  Returns the
`(year, month, day)` triple handed to `datetime.date`. -/
def calcEasterO (year : Int) : Int × Int × Int :=
  let e := easterOE year
  let a := e % 31 + 1 + (if 124 < e then 1 else 0)
  let m := e / 31
  if 30 < a then (year, 5, 1) else (year, m, a)

/-- The same formula as `calcEasterO` but with `m = e // 31` evaluated by
integer division (so `m > 4` is `e // 31 > 4`), for comparison. -/
def calcEasterOIntDiv (year : Int) : Int × Int × Int :=
  let e := easterOE year
  let m := e / 31
  let a := e % 31 + 1 + (if 4 < m then 1 else 0)
  if 30 < a then (year, 5, 1) else (year, m, a)

theorem easterOE_bounds (year : Int) : 127 ≤ easterOE year ∧ easterOE year ≤ 162 := by
  unfold easterOE
  constructor <;> omega

/-- Successor calendar date.  `dt + timedelta(days=1)` in CPython is
ordinal arithmetic, `date.fromordinal(dt.toordinal() + 1)`; the theorem
`toOrdinal_dateSucc` below shows this function is exactly that map on
valid dates. -/
def dateSucc (dt : Date) : Date :=
  if dt.day < daysInMonth dt.year dt.month then ⟨dt.year, dt.month, dt.day + 1⟩
  else if dt.month < 12 then ⟨dt.year, dt.month + 1, 1⟩
  else ⟨dt.year + 1, 1, 1⟩

/-- Predecessor calendar date, the model of `dt - timedelta(days=1)`. -/
def datePred (dt : Date) : Date :=
  if 1 < dt.day then ⟨dt.year, dt.month, dt.day - 1⟩
  else if 1 < dt.month then ⟨dt.year, dt.month - 1, daysInMonth dt.year (dt.month - 1)⟩
  else ⟨dt.year - 1, 12, 31⟩

/-- `dt + timedelta(days=delta)` for an arbitrary integer `delta`. -/
def addDays (dt : Date) (delta : Int) : Date :=
  if 0 ≤ delta then (fun d => dateSucc d)^[delta.toNat] dt
  else (fun d => datePred d)^[(-delta).toNat] dt

theorem daysBeforeMonth_step (y m : Int) (h1 : 1 ≤ m) (h2 : m ≤ 11) :
    daysBeforeMonth y (m + 1) = daysBeforeMonth y m + daysInMonth y m := by
  unfold daysBeforeMonth daysInMonth
  interval_cases m <;> by_cases hL : isLeap y <;> simp [hL]

theorem daysBeforeYear_step (y : Int) :
    daysBeforeYear (y + 1) = daysBeforeYear y + (if isLeap y then 366 else 365) := by
  unfold daysBeforeYear isLeap
  split
  case isTrue h => omega
  case isFalse h =>
    rw [not_and_or] at h
    rcases h with h | h
    · omega
    · rw [not_or] at h
      omega

theorem daysInMonth_bounds (y m : Int) (h1 : 1 ≤ m) (h2 : m ≤ 12) :
    28 ≤ daysInMonth y m ∧ daysInMonth y m ≤ 31 := by
  unfold daysInMonth
  interval_cases m <;> by_cases hL : isLeap y <;> simp [hL]

/-- On valid dates `dateSucc` advances the CPython ordinal by one: it is
the genuine next Gregorian calendar date. -/
theorem toOrdinal_dateSucc (dt : Date) (hv : validDate dt) :
    toOrdinal (dateSucc dt) = toOrdinal dt + 1 := by
  obtain ⟨y, m, d⟩ := dt
  obtain ⟨hy, hm1, hm2, hd1, hd2⟩ := hv
  simp only [dateSucc, validDate, toOrdinal] at *
  split
  case isTrue h => dsimp only; omega
  case isFalse h =>
    split
    case isTrue h2 =>
      have hstep := daysBeforeMonth_step y m hm1 (by omega)
      dsimp only
      omega
    case isFalse h2 =>
      have hm12 : m = 12 := by omega
      have hd31 : d = 31 := by
        have : daysInMonth y m = 31 := by rw [hm12]; simp [daysInMonth]
        omega
      have hy' := daysBeforeYear_step y
      have hbm12 : daysBeforeMonth y 12 = 334 + (if isLeap y then 1 else 0) := by
        simp [daysBeforeMonth]
      have hbm1 : daysBeforeMonth (y + 1) 1 = 0 := by
        simp [daysBeforeMonth]
      dsimp only
      rw [hm12, hd31, hbm1, hbm12]
      by_cases hL : isLeap y <;> simp only [if_pos, if_neg, hL, if_true, if_false] at hy' ⊢ <;> omega

/-- On valid dates `datePred` is the genuine previous calendar date. -/
theorem toOrdinal_datePred (dt : Date) (hv : validDate dt) :
    toOrdinal (datePred dt) = toOrdinal dt - 1 := by
  obtain ⟨y, m, d⟩ := dt
  obtain ⟨hy, hm1, hm2, hd1, hd2⟩ := hv
  simp only [datePred, validDate, toOrdinal] at *
  split
  case isTrue h => dsimp only; omega
  case isFalse h =>
    split
    case isTrue h2 =>
      have hstep := daysBeforeMonth_step y (m - 1) (by omega) (by omega)
      have hmm : m - 1 + 1 = m := by omega
      rw [hmm] at hstep
      dsimp only
      omega
    case isFalse h2 =>
      have hm1' : m = 1 := by omega
      have hd1' : d = 1 := by omega
      have hy' := daysBeforeYear_step (y - 1)
      have hyy : y - 1 + 1 = y := by omega
      rw [hyy] at hy'
      have hbm12 : daysBeforeMonth (y - 1) 12 = 334 + (if isLeap (y - 1) then 1 else 0) := by
        simp [daysBeforeMonth]
      have hbm1 : daysBeforeMonth y 1 = 0 := by
        simp [daysBeforeMonth]
      dsimp only
      rw [hm1', hd1', hbm1, hbm12]
      by_cases hL : isLeap (y - 1) <;>
        simp only [if_pos, if_neg, hL, if_true, if_false] at hy' ⊢ <;> omega

theorem dateSucc_valid (dt : Date) (hv : validDate dt) : validDate (dateSucc dt) := by
  obtain ⟨y, m, d⟩ := dt
  obtain ⟨hy, hm1, hm2, hd1, hd2⟩ := hv
  simp only [dateSucc, validDate] at *
  split
  case isTrue h => dsimp only at *; exact ⟨hy, hm1, hm2, by omega, by omega⟩
  case isFalse h =>
    split
    case isTrue h2 =>
      have := daysInMonth_bounds y (m + 1) (by omega) (by omega)
      dsimp only at *
      exact ⟨hy, by omega, by omega, by omega, by omega⟩
    case isFalse h2 =>
      dsimp only
      refine ⟨by omega, by omega, by omega, by omega, ?_⟩
      simp [daysInMonth]

theorem datePred_valid (dt : Date) (hv : validDate dt)
    (hmin : ¬(dt.year = 1 ∧ dt.month = 1 ∧ dt.day = 1)) : validDate (datePred dt) := by
  obtain ⟨y, m, d⟩ := dt
  obtain ⟨hy, hm1, hm2, hd1, hd2⟩ := hv
  have hdim := daysInMonth_bounds y m hm1 hm2
  simp only [datePred, validDate] at *
  split
  case isTrue h => dsimp only at *; exact ⟨hy, hm1, hm2, by omega, by omega⟩
  case isFalse h =>
    split
    case isTrue h2 =>
      have := daysInMonth_bounds y (m - 1) (by omega) (by omega)
      dsimp only at *
      exact ⟨hy, by omega, by omega, by omega, by omega⟩
    case isFalse h2 =>
      dsimp only at *
      refine ⟨by omega, by omega, by omega, by omega, ?_⟩
      simp [daysInMonth]

/-- `calcHolidays.calcNthWeekdayOfMonth(n, weekday, month, year)`.
`IndexError` raises are embedded as `Except.error`. -/
def calcNthWeekdayOfMonth (n weekday month year : Int) :
    Except String (Int × Int × Int) :=
  if ¬(0 ≤ n ∧ n ≤ 5) then .error ("Nth day of month must be 0-5")
  else if ¬(0 ≤ weekday ∧ weekday ≤ 6) then .error ("Weekday must be 0-6")
  else
    let firstday := (monthrange year month).1
    let daysinmonth := (monthrange year month).2
    let first_weekday_of_kind := 1 + (weekday - firstday) % 7
    let n2 := if n = 0 then
        (if (first_weekday_of_kind = 1 ∨ first_weekday_of_kind = 2 ∨
              first_weekday_of_kind = 3) ∧ first_weekday_of_kind + 28 ≤ daysinmonth
         then 5 else 4)
      else n
    let day := first_weekday_of_kind + (n2 - 1) * 7
    if daysinmonth < day then .error ("No nth day of month")
    else .ok (year, month, day)

theorem pyWeekday_shift (y m d : Int) :
    pyWeekday y m d = (pyWeekday y m 1 + (d - 1)) % 7 := by
  simp only [pyWeekday, toOrdinal]
  omega

theorem pyWeekday_lt (y m d : Int) : 0 ≤ pyWeekday y m d ∧ pyWeekday y m d < 7 := by
  simp only [pyWeekday]
  omega

/-- C1: for every year, month 1-12 and weekday 0-6 (Monday = 0),
`calcNthWeekdayOfMonth 0 wd m y` succeeds with `(y, m, d)` where `d` is
the maximal day not exceeding the month's day count whose weekday equals
`wd`: the occurrence-5-vs-4 heuristic always selects the true last
occurrence. -/
theorem calcNthWeekdayOfMonth_last_correct
    (y m wd : Int) (hy : 1 ≤ y) (hm1 : 1 ≤ m) (hm2 : m ≤ 12)
    (hw1 : 0 ≤ wd) (hw2 : wd ≤ 6) :
    ∃ d : Int, calcNthWeekdayOfMonth 0 wd m y = .ok (y, m, d) ∧
      1 ≤ d ∧ d ≤ daysInMonth y m ∧ pyWeekday y m d = wd ∧
      ∀ e : Int, d < e → e ≤ daysInMonth y m → pyWeekday y m e ≠ wd := by
  obtain ⟨hfd0, hfd7⟩ := pyWeekday_lt y m 1
  obtain ⟨hdim1, hdim2⟩ := daysInMonth_bounds y m hm1 hm2
  have hmod0 : 0 ≤ (wd - pyWeekday y m 1) % 7 := Int.emod_nonneg _ (by omega)
  have hmod7 : (wd - pyWeekday y m 1) % 7 < 7 := Int.emod_lt_of_pos _ (by omega)
  have hshift : ∀ e : Int, pyWeekday y m e = (pyWeekday y m 1 + (e - 1)) % 7 :=
    pyWeekday_shift y m
  simp only [calcNthWeekdayOfMonth, monthrange]
  rw [if_neg (by omega), if_neg (by omega)]
  norm_num
  split_ifs with hc hlt hlt
  · -- heuristic chose occurrence 5 but it would overflow: impossible
    exfalso; omega
  · refine ⟨_, rfl, by omega, by omega, ?_, ?_⟩
    · rw [hshift]; omega
    · intro e he1 he2
      rw [hshift]; omega
  · -- occurrence 4 always fits inside 28 days: impossible
    exfalso; omega
  · refine ⟨_, rfl, by omega, by omega, ?_, ?_⟩
    · rw [hshift]; omega
    · intro e he1 he2
      rw [hshift]; omega

/-- C1 witness: last Monday of May 2021 is resolved successfully. -/
theorem calcNthWeekdayOfMonth_last_correct_witness :
    ∃ d : Int, calcNthWeekdayOfMonth 0 0 5 2021 = .ok (2021, 5, d) ∧
      1 ≤ d ∧ d ≤ daysInMonth 2021 5 ∧ pyWeekday 2021 5 d = 0 ∧
      ∀ e : Int, d < e → e ≤ daysInMonth 2021 5 → pyWeekday 2021 5 e ≠ 0 :=
  calcNthWeekdayOfMonth_last_correct 2021 5 0 (by decide) (by decide) (by decide)
    (by decide) (by decide)

/-- C2: Easter Algorithm A (`calcEaster`) reproduces the reference dates
2000-04-23 and 2024-03-31, and the encoding
`f = d + e - 7*((a + 11d + 22e) // 451) + 114`, `month = f // 31`,
`day = f % 31 + 1` yields an existing Gregorian date for these inputs. -/
theorem calcEaster_reference_dates :
    calcEaster 2000 = (2000, 4, 23) ∧ calcEaster 2024 = (2024, 3, 31) ∧
      validDate ⟨2000, (calcEaster 2000).2.1, (calcEaster 2000).2.2⟩ ∧
      validDate ⟨2024, (calcEaster 2024).2.1, (calcEaster 2024).2.2⟩ := by
  refine ⟨by decide, by decide, by decide, by decide⟩

/-- C3: in `calcEasterO` the float comparison `m > 4` (with
`m = e / 31` a true-division float) holds for every reachable `e`
(always `e ≥ 127 > 124`), so the day gets the extra `+ 1`; consequently
whenever the returned month is April the returned day is one larger than
the day the same formula yields under integer division, and the concrete
values are `calcEasterO 2020 = 2020-04-20` (one day past the canonical
2020-04-19) and `calcEasterO 2021 = 2021-05-02` (canonical). -/
theorem calcEasterO_float_division_offset (year : Int) :
    127 ≤ easterOE year ∧ 124 < easterOE year ∧
      ((calcEasterO year).2.1 = 4 →
        (calcEasterOIntDiv year).2.1 = 4 ∧
        (calcEasterO year).2.2 = (calcEasterOIntDiv year).2.2 + 1) ∧
      calcEasterO 2020 = (2020, 4, 20) ∧ calcEasterO 2021 = (2021, 5, 2) := by
  obtain ⟨he1, he2⟩ := easterOE_bounds year
  refine ⟨he1, by omega, ?_, by decide, by decide⟩
  intro hm
  simp only [calcEasterO, calcEasterOIntDiv] at *
  rw [if_pos (by omega : 124 < easterOE year)] at hm ⊢
  by_cases hA : 30 < easterOE year % 31 + 1 + 1
  · rw [if_pos hA] at hm
    exact absurd hm (by norm_num)
  · rw [if_neg hA] at hm ⊢
    dsimp only at hm
    have hdiv : ¬ 4 < easterOE year / 31 := by omega
    rw [if_neg hdiv]
    rw [if_neg (by omega : ¬ 30 < easterOE year % 31 + 1 + 0)]
    dsimp only
    omega

/-- C3 witness: the April offset hypothesis discharged at year 2020. -/
theorem calcEasterO_float_division_offset_witness :
    (calcEasterOIntDiv 2020).2.1 = 4 ∧
      (calcEasterO 2020).2.2 = (calcEasterOIntDiv 2020).2.2 + 1 :=
  (calcEasterO_float_division_offset 2020).2.2.1 (by decide)

/-- `ScMonthCalendar._getTrailingDays(year, month)`; `fwd` is the
process-wide `calendar.firstweekday()` the constructor set. -/
def getTrailingDays (fwd year month : Int) : Int :=
  let day1 := ((monthrange year month).1 - fwd) % 7
  let nCels := day1 + (monthrange year month).2
  if 35 < nCels then nCels % 7 else 0

/-- Column index (0-6) of the first day of the month in the grid that
`calendar.Calendar(fwd).monthdatescalendar` produces. -/
def firstWeekdayOffset (fwd year month : Int) : Int :=
  (pyWeekday year month 1 - fwd) % 7

/-- Number of week rows of the month grid
(`monthdatescalendar` pads the month span to whole weeks). -/
def numWeeks (fwd year month : Int) : Int :=
  (firstWeekdayOffset fwd year month + daysInMonth year month + 6) / 7

/-- Cell index `i` (0-based over the whole grid) holds day
`i - firstWeekdayOffset + 1` of the month; it shows a day of the next
month iff that exceeds the month length.  This counts such cells in the
last displayed week. -/
def nextMonthCellsInLastWeek (fwd year month : Int) : Int :=
  7 * numWeeks fwd year month
    - (firstWeekdayOffset fwd year month + daysInMonth year month)

/-- Cells of the last displayed week that hold days of the month itself. -/
def currentMonthCellsInLastWeek (fwd year month : Int) : Int :=
  (firstWeekdayOffset fwd year month + daysInMonth year month)
    - 7 * (numWeeks fwd year month - 1)

/-- C4 counterexample: May 2021 with Monday as first weekday starts on a
Saturday, so its 6th week holds one day of May and six days of June;
`_getTrailingDays` returns 1, the number of CURRENT-month cells, not the
6 next-month cells the claim asserts. -/
theorem getTrailingDays_not_nextMonthCells :
    getTrailingDays 0 2021 5 = 1 ∧ nextMonthCellsInLastWeek 0 2021 5 = 6 ∧
      firstWeekdayOffset 0 2021 5 + daysInMonth 2021 5 = 36 ∧ 35 < 36 ∧
      ¬ getTrailingDays 0 2021 5 = nextMonthCellsInLastWeek 0 2021 5 := by
  refine ⟨by decide, by decide, by decide, by decide, by decide⟩

/-- C4 amended: `_getTrailingDays` returns
`(firstWeekdayOffset + daysInMonth) % 7` when that cell count exceeds 35
and 0 otherwise, and when it exceeds 35 the returned value equals the
number of day cells of the last (6th) displayed week that belong to the
month itself — the cells belonging to the next month number 7 minus the
returned value. -/
theorem getTrailingDays_spec (fwd year month : Int)
    (hf1 : 0 ≤ fwd) (hf2 : fwd ≤ 6) (hm1 : 1 ≤ month) (hm2 : month ≤ 12) :
    (getTrailingDays fwd year month =
      if 35 < firstWeekdayOffset fwd year month + daysInMonth year month
      then (firstWeekdayOffset fwd year month + daysInMonth year month) % 7
      else 0) ∧
    (35 < firstWeekdayOffset fwd year month + daysInMonth year month →
      numWeeks fwd year month = 6 ∧
      getTrailingDays fwd year month = currentMonthCellsInLastWeek fwd year month ∧
      nextMonthCellsInLastWeek fwd year month =
        7 - getTrailingDays fwd year month) := by
  obtain ⟨hd1, hd2⟩ := daysInMonth_bounds year month hm1 hm2
  obtain ⟨hw1, hw2⟩ := pyWeekday_lt year month 1
  simp only [getTrailingDays, numWeeks, currentMonthCellsInLastWeek,
    nextMonthCellsInLastWeek, monthrange, firstWeekdayOffset]
  constructor
  · trivial
  · intro hgt
    rw [if_pos hgt]
    refine ⟨by omega, by omega, by omega⟩

/-- C4 witness: the amended statement instantiated at May 2021 with
Monday as first weekday (a 6-week month). -/
theorem getTrailingDays_spec_witness :
    (getTrailingDays 0 2021 5 =
      if 35 < firstWeekdayOffset 0 2021 5 + daysInMonth 2021 5
      then (firstWeekdayOffset 0 2021 5 + daysInMonth 2021 5) % 7
      else 0) ∧
    (35 < firstWeekdayOffset 0 2021 5 + daysInMonth 2021 5 →
      numWeeks 0 2021 5 = 6 ∧
      getTrailingDays 0 2021 5 = currentMonthCellsInLastWeek 0 2021 5 ∧
      nextMonthCellsInLastWeek 0 2021 5 = 7 - getTrailingDays 0 2021 5) :=
  getTrailingDays_spec 0 2021 5 (by decide) (by decide) (by decide) (by decide)

/-- One row of the `*moonphases.txt` source after field parsing:
`<year>,<month>,<day>,<HH:MM...>,<phaseCode>`; `hr` is the integer the
code reads from the time field before the colon. -/
structure MoonRow where
  y : Int
  m : Int
  d : Int
  hr : Int
  phase : Int
deriving DecidableEq, Repr

/-- The phase-code-to-glyph chain of `calcMoons.importMoons`, glyphs as
Unicode code points; an unknown code leaves Python's `x` unbound and the
`append` raises `NameError` (modelled as `none`). -/
def moonGlyph (p : Int) : Option Nat :=
  if p = 0 then some 0x25CF
  else if p = 1 then some 0x25D0
  else if p = 2 then some 0x25CB
  else if p = 3 then some 0x25D1
  else none

/-- The body of the `for row in csvReader` loop of
`calcMoons.importMoons` for one row: `none` when the year filter drops
the row, `error` when the row raises (invalid date or unknown phase
code). -/
def processMoonRow (year utcdiff : Int) (r : MoonRow) :
    Except Unit (Option (Int × Int × Nat)) :=
  if r.y = year then
    if ¬ validDate ⟨r.y, r.m, r.d⟩ then .error ()
    else
      let timeHr := r.hr + utcdiff
      match moonGlyph r.phase with
      | none => .error ()
      | some x =>
        if 23 < timeHr then
          let dt := dateSucc ⟨r.y, r.m, r.d⟩
          .ok (some (dt.month, dt.day, x))
        else if timeHr < 0 then
          let dt := datePred ⟨r.y, r.m, r.d⟩
          .ok (some (dt.month, dt.day, x))
        else .ok (some (r.m, r.d, x))
  else .ok none

/-- `calcMoons.importMoons` over the parsed rows; the `Bool` records
whether the warning branch ran (a raising row breaks the loop). -/
def importMoons (year utcdiff : Int) : List MoonRow → List (Int × Int × Nat) × Bool
  | [] => ([], false)
  | r :: rest =>
    match processMoonRow year utcdiff r with
    | .error _ => ([], true)
    | .ok none => importMoons year utcdiff rest
    | .ok (some mrec) =>
      let t := importMoons year utcdiff rest
      (mrec :: t.1, t.2)

/-- The local calendar date a retained moon row denotes after the UTC
offset is applied. -/
def moonAdjustedDate (utcdiff : Int) (r : MoonRow) : Date :=
  if 23 < r.hr + utcdiff then dateSucc ⟨r.y, r.m, r.d⟩
  else if r.hr + utcdiff < 0 then datePred ⟨r.y, r.m, r.d⟩
  else ⟨r.y, r.m, r.d⟩

/-- C5: every retained moon row is emitted with the UTC offset added to
its hour: sum past 23 advances the emitted date by one day, sum below 0
recedes it by one day, otherwise the row's own month/day is emitted; the
shift is genuine date arithmetic (the adjusted date's ordinal moves by
exactly one), so month and year boundaries roll to the correct adjacent
calendar date. -/
theorem importMoons_rollover (year utcdiff : Int) (r : MoonRow)
    (hy : r.y = year) (hv : validDate ⟨r.y, r.m, r.d⟩)
    (hp : (moonGlyph r.phase).isSome) :
    processMoonRow year utcdiff r =
      .ok (some ((moonAdjustedDate utcdiff r).month,
        (moonAdjustedDate utcdiff r).day, (moonGlyph r.phase).get hp)) ∧
    (23 < r.hr + utcdiff →
      moonAdjustedDate utcdiff r = dateSucc ⟨r.y, r.m, r.d⟩ ∧
      toOrdinal (moonAdjustedDate utcdiff r) = toOrdinal ⟨r.y, r.m, r.d⟩ + 1) ∧
    (r.hr + utcdiff < 0 →
      moonAdjustedDate utcdiff r = datePred ⟨r.y, r.m, r.d⟩ ∧
      toOrdinal (moonAdjustedDate utcdiff r) = toOrdinal ⟨r.y, r.m, r.d⟩ - 1) ∧
    (0 ≤ r.hr + utcdiff → r.hr + utcdiff ≤ 23 →
      moonAdjustedDate utcdiff r = ⟨r.y, r.m, r.d⟩) := by
  obtain ⟨g, hg⟩ := Option.isSome_iff_exists.mp hp
  refine ⟨?_, ?_, ?_, ?_⟩
  · simp only [processMoonRow, moonAdjustedDate, hy, if_pos, hg]
    rw [if_neg (by simpa [hy] using hv)]
    split_ifs with h1 h2 <;> simp [hg]
  · intro h
    simp only [moonAdjustedDate, if_pos h]
    exact ⟨trivial, toOrdinal_dateSucc _ hv⟩
  · intro h
    simp only [moonAdjustedDate, if_neg (by omega : ¬ 23 < r.hr + utcdiff), if_pos h]
    exact ⟨trivial, toOrdinal_datePred _ hv⟩
  · intro h1 h2
    simp only [moonAdjustedDate, if_neg (by omega : ¬ 23 < r.hr + utcdiff),
      if_neg (by omega : ¬ r.hr + utcdiff < 0)]

/-- C5 witness: hour 23 with offset +2 on Dec 31 rolls to Jan 1 of the
next year, hour 1 with offset −3 on Jan 1 rolls back to Dec 31, and
hour 12 with offset +1 stays on the same date. -/
theorem importMoons_rollover_witness :
    (processMoonRow 2021 2 ⟨2021, 12, 31, 23, 0⟩ =
        .ok (some ((moonAdjustedDate 2 ⟨2021, 12, 31, 23, 0⟩).month,
          (moonAdjustedDate 2 ⟨2021, 12, 31, 23, 0⟩).day,
          (moonGlyph 0).get (by decide)))) ∧
    moonAdjustedDate 2 ⟨2021, 12, 31, 23, 0⟩ = ⟨2022, 1, 1⟩ ∧
    moonAdjustedDate (-3) ⟨2021, 1, 1, 1, 1⟩ = ⟨2020, 12, 31⟩ ∧
    moonAdjustedDate 1 ⟨2021, 6, 15, 12, 2⟩ = ⟨2021, 6, 15⟩ :=
  ⟨(importMoons_rollover 2021 2 ⟨2021, 12, 31, 23, 0⟩ rfl (by decide) (by decide)).1,
    by decide, by decide, by decide⟩

/-- C6 counterexample: the Dec 31 row with UTC hour 23 and offset +2 is
retained by the year filter but its adjusted local date is Jan 1 of the
NEXT year; `importMoons` still emits it as `(1, 1)`, so not every
emitted record denotes a date of the requested year. -/
theorem importMoons_emits_next_year :
    importMoons 2021 2 [⟨2021, 12, 31, 23, 0⟩] = ([(1, 1, 0x25CF)], false) ∧
      moonAdjustedDate 2 ⟨2021, 12, 31, 23, 0⟩ = ⟨2022, 1, 1⟩ ∧
      ¬ (moonAdjustedDate 2 ⟨2021, 12, 31, 23, 0⟩).year = 2021 := by
  refine ⟨by decide, by decide, by decide⟩

/-- C6 amended: for every retained valid row the adjusted date still lies
in the requested year UNLESS the row's date is Dec 31 (overflow rolls to
Jan 1 of year+1) or Jan 1 (underflow rolls to Dec 31 of year−1); away
from those two days every emitted record denotes a date of the requested
year. -/
theorem importMoons_year_stable (year utcdiff : Int) (r : MoonRow)
    (hy : r.y = year) (hv : validDate ⟨r.y, r.m, r.d⟩)
    (hEnd : ¬ (r.m = 12 ∧ r.d = 31)) (hStart : ¬ (r.m = 1 ∧ r.d = 1)) :
    (moonAdjustedDate utcdiff r).year = year := by
  obtain ⟨ry, rm, rd, rhr, rp⟩ := r
  simp only [validDate] at hv
  obtain ⟨h1v, h2v, h3v, h4v, h5v⟩ := hv
  subst hy
  simp only [moonAdjustedDate]
  split_ifs with h1 h2
  · by_cases h12 : rm = 12
    · subst h12
      have hne : rd ≠ 31 := fun h => hEnd ⟨rfl, h⟩
      have hd : daysInMonth ry 12 = 31 := by simp [daysInMonth]
      simp only [dateSucc]
      split_ifs with hs1 hs2 <;> first | rfl | omega
    · simp only [dateSucc]
      split_ifs with hs1 hs2 <;> first | rfl | omega
  · by_cases h01 : rm = 1
    · subst h01
      have hne : rd ≠ 1 := fun h => hStart ⟨rfl, h⟩
      simp only [datePred]
      split_ifs with hs1 hs2 <;> first | rfl | omega
    · simp only [datePred]
      split_ifs with hs1 hs2 <;> first | rfl | omega
  · rfl

/-- C6 witness: a mid-month row (June 15) keeps the requested year even
when the offset rolls the date. -/
theorem importMoons_year_stable_witness :
    (moonAdjustedDate 2 ⟨2021, 6, 15, 23, 0⟩).year = 2021 :=
  importMoons_year_stable 2021 2 ⟨2021, 6, 15, 23, 0⟩ rfl (by decide)
    (by decide) (by decide)

/-- One holiday record as `calcHolidays.importHolidays` appends it:
`(year, month-string, day-string, text, major-flag)`. -/
structure HRecord where
  year : Int
  month : String
  day : String
  text : String
  major : String
deriving DecidableEq, Repr

/-- Value of a decimal digit character. -/
def digitVal (c : Char) : Option Nat :=
  if ('0' ≤ c ∧ c ≤ '9') then some (c.toNat - 48) else none

def parseNatDigitsAux : List Char → Nat → Option Nat
  | [], acc => some acc
  | c :: cs, acc =>
    match digitVal c with
    | none => none
    | some d => parseNatDigitsAux cs (acc * 10 + d)

/-- `int(s)` for the CSV fields: a plain decimal numeral with optional
leading minus sign (`none` models the `ValueError` raise). -/
def parseIntStr (s : String) : Option Int :=
  match s.data with
  | [] => none
  | c :: cs =>
    if c = '-' then
      match cs with
      | [] => none
      | _ => (parseNatDigitsAux cs 0).map (fun n => -(n : Int))
    else (parseNatDigitsAux (c :: cs) 0).map (fun n => (n : Int))

/-- `calcEaster` followed by the `datetime.date` constructor (which
raises on an impossible triple). -/
def calcEasterDate (year : Int) : Except Unit Date :=
  let t := calcEaster year
  if validDate ⟨t.1, t.2.1, t.2.2⟩ then .ok ⟨t.1, t.2.1, t.2.2⟩ else .error ()

/-- `calcEasterO` followed by the `datetime.date` constructor. -/
def calcEasterODate (year : Int) : Except Unit Date :=
  let t := calcEasterO year
  if validDate ⟨t.1, t.2.1, t.2.2⟩ then .ok ⟨t.1, t.2.1, t.2.2⟩ else .error ()

/-- The body of the `for row in csvReader` loop of
`calcHolidays.importHolidays` for one row.  Returns the records the row
appended to the list together with a flag telling whether the row raised
(the bare `except` then breaks the loop).  A `nWDOM` December/January
row appends its requested-year record BEFORE computing the duplicate
year, so a raise there leaves a partial contribution behind. -/
def processHolidayRow (year : Int) (row : List String) : List HRecord × Bool :=
  match row[0]? with
  | none => ([], true)
  | some t0 =>
    if t0 = "fixed" then
      match row[1]?, row[2]?, row[4]?, row[5]? with
      | some m, some d, some tx, some mj =>
        let recs1 := [HRecord.mk year m d tx mj]
        let recs2 := if m = "12" then recs1 ++ [HRecord.mk (year - 1) m d tx mj] else recs1
        let recs3 := if m = "1" then recs2 ++ [HRecord.mk (year + 1) m d tx mj] else recs2
        (recs3, false)
      | _, _, _, _ => ([], true)
    else if t0 = "nWDOM" then
      match row[1]?, row[2]?, row[3]?, row[4]?, row[5]? with
      | some ms, some ws, some ns, some tx, some mj =>
        match parseIntStr ns, parseIntStr ws, parseIntStr ms with
        | some n, some w, some mo =>
          match calcNthWeekdayOfMonth n w mo year with
          | .error _ => ([], true)
          | .ok dt1 =>
            let recs1 := [HRecord.mk year (toString dt1.2.1) (toString dt1.2.2) tx mj]
            if ms = "12" then
              match calcNthWeekdayOfMonth n w mo (year - 1) with
              | .error _ => (recs1, true)
              | .ok dt2 =>
                (recs1 ++ [HRecord.mk (year - 1) (toString dt2.2.1) (toString dt2.2.2) tx mj],
                  false)
            else if ms = "1" then
              match calcNthWeekdayOfMonth n w mo (year + 1) with
              | .error _ => (recs1, true)
              | .ok dt3 =>
                (recs1 ++ [HRecord.mk (year + 1) (toString dt3.2.1) (toString dt3.2.2) tx mj],
                  false)
            else (recs1, false)
        | _, _, _ => ([], true)
      | _, _, _, _, _ => ([], true)
    else if t0 = "variable" then
      match row[1]? with
      | none => ([], true)
      | some alg =>
        if alg = "easter" ∨ alg = "easterO" then
          match (if alg = "easterO" then calcEasterODate year else calcEasterDate year) with
          | .error _ => ([], true)
          | .ok base =>
            match row[2]?, row[4]?, row[5]? with
            | some ds, some tx, some mj =>
              match parseIntStr ds with
              | none => ([], true)
              | some delta =>
                let dt := addDays base delta
                ([HRecord.mk dt.year (toString dt.month) (toString dt.day) tx mj], false)
            | _, _, _ => ([], true)
        else ([], false)
    else ([], false)

/-- `calcHolidays.importHolidays` over the parsed CSV rows; the `Bool`
records whether the warning branch ran (first raising row breaks the
loop, keeping everything appended so far). -/
def importHolidays (year : Int) : List (List String) → List HRecord × Bool
  | [] => ([], false)
  | row :: rest =>
    let p := processHolidayRow year row
    if p.2 then (p.1, true)
    else
      let t := importHolidays year rest
      (p.1 ++ t.1, t.2)

/-- C7: a fixed holiday row emits exactly one record `(Y, month, day)`
when its month is neither "12" nor "1"; for month "12" exactly the two
records for `Y` and `Y−1`; for month "1" exactly the two records for `Y`
and `Y+1`; and a December entry queried at `Y` yields a record for `Y−1`
while queried at `Y+1` it yields one for `Y` (duplication symmetry). -/
theorem importHolidays_fixed_duplication (year : Int) (mS dS eS tS fS : String) :
    (mS ≠ "12" → mS ≠ "1" →
      processHolidayRow year [("fixed"), mS, dS, eS, tS, fS] =
        ([HRecord.mk year mS dS tS fS], false)) ∧
    (mS = "12" →
      processHolidayRow year [("fixed"), mS, dS, eS, tS, fS] =
        ([HRecord.mk year mS dS tS fS, HRecord.mk (year - 1) mS dS tS fS], false) ∧
      HRecord.mk (year - 1) mS dS tS fS ∈
        (processHolidayRow year [("fixed"), mS, dS, eS, tS, fS]).1 ∧
      HRecord.mk year mS dS tS fS ∈
        (processHolidayRow (year + 1) [("fixed"), mS, dS, eS, tS, fS]).1) ∧
    (mS = "1" →
      processHolidayRow year [("fixed"), mS, dS, eS, tS, fS] =
        ([HRecord.mk year mS dS tS fS, HRecord.mk (year + 1) mS dS tS fS], false)) := by
  refine ⟨?_, ?_, ?_⟩
  · intro h12 h1
    simp [processHolidayRow, h12, h1]
  · intro h
    subst h
    refine ⟨by simp [processHolidayRow], by simp [processHolidayRow], ?_⟩
    have : year + 1 - 1 = year := by omega
    simp [processHolidayRow, this]
  · intro h
    subst h
    simp [processHolidayRow]

/-- C7 witness: a Christmas-style row at month "12". -/
theorem importHolidays_fixed_duplication_witness :
    processHolidayRow 2024 [("fixed"), ("12"), ("25"), (""), ("Xmas"), ("1")] =
      ([HRecord.mk 2024 ("12") ("25") ("Xmas") ("1"),
        HRecord.mk 2023 ("12") ("25") ("Xmas") ("1")], false) :=
  ((importHolidays_fixed_duplication 2024 ("12") ("25") ("") ("Xmas") ("1")).2.1 rfl).1


/-- C8 counterexample: the single row `nWDOM,12,0,5,X,1` at year 2024
resolves to Dec 30 2024 and appends that record, then raises while
computing the year-2023 duplicate (December 2023 has only four Mondays),
so the returned list contains a record of the FAILING row itself — not
only records of preceding rows (here there are none). -/
theorem importHolidays_partial_failing_row :
    importHolidays 2024 [[("nWDOM"), ("12"), ("0"), ("5"), ("X"), ("1")]] =
      ([HRecord.mk 2024 ("12") ("30") ("X") ("1")], true) ∧
    calcNthWeekdayOfMonth 5 0 12 2023 = .error ("No nth day of month") ∧
    ¬ (importHolidays 2024 [[("nWDOM"), ("12"), ("0"), ("5"), ("X"), ("1")]]).1 = [] := by
  refine ⟨by rfl, by rfl, fun hcon => List.cons_ne_nil _ _ hcon⟩

/-- C8 amended: `importHolidays` is a total function of the row list (no
exception escapes); the first row whose processing raises aborts all
remaining rows and the returned list is everything accumulated up to the
raise — the records of the preceding rows plus whatever the failing row
itself had already appended — with the warning flag set; and a row whose
leading token is none of fixed/nWDOM/variable is skipped without
aborting and without emitting a record. -/
theorem importHolidays_error_handling (year : Int) :
    (∀ (row : List String) (t0 : String) (rest : List (List String)),
        row[0]? = some t0 → t0 ≠ "fixed" → t0 ≠ "nWDOM" → t0 ≠ "variable" →
        processHolidayRow year row = ([], false) ∧
        importHolidays year (row :: rest) = importHolidays year rest) ∧
    (∀ (pre : List (List String)) (row : List String) (post : List (List String)),
        (∀ x ∈ pre, (processHolidayRow year x).2 = false) →
        (processHolidayRow year row).2 = true →
        importHolidays year (pre ++ row :: post) =
          ((pre.map (fun x => (processHolidayRow year x).1)).flatten
            ++ (processHolidayRow year row).1, true)) := by
  constructor
  · intro row t0 rest h0 hf hn hv
    have hrow : processHolidayRow year row = ([], false) := by
      simp only [processHolidayRow, h0]
      rw [if_neg hf, if_neg hn, if_neg hv]
    refine ⟨hrow, ?_⟩
    simp [importHolidays, hrow]
  · intro pre row post hpre hrow
    induction pre with
    | nil =>
      simp only [List.nil_append, importHolidays, List.map_nil, List.flatten_nil]
      rw [if_pos hrow]
    | cons x xs ih =>
      have hx : (processHolidayRow year x).2 = false := hpre x (by simp)
      have ih2 := ih (fun z hz => hpre z (by simp [hz]))
      have hstep : importHolidays year ((x :: xs) ++ row :: post) =
          ((processHolidayRow year x).1 ++ (importHolidays year (xs ++ row :: post)).1,
            (importHolidays year (xs ++ row :: post)).2) := by
        simp only [List.cons_append, importHolidays]
        rw [if_neg (by rw [hx]; simp)]
        rfl
      rw [hstep, ih2]
      simp

/-- C8 witness: an unknown token is skipped; an empty row (Python's
`row[0]` raises `IndexError`) aborts the import after the first fixed
row's record, ignoring a later valid row. -/
theorem importHolidays_error_handling_witness :
    (processHolidayRow 2024 [("comment"), ("x")] = ([], false) ∧
      importHolidays 2024 [[("comment"), ("x")]] = importHolidays 2024 []) ∧
    importHolidays 2024
        [[("fixed"), ("3"), ("1"), (""), ("A"), ("0")], [],
         [("fixed"), ("4"), ("2"), (""), ("B"), ("0")]] =
      ([HRecord.mk 2024 ("3") ("1") ("A") ("0")], true) := by
  constructor
  · exact (importHolidays_error_handling 2024).1 [("comment"), ("x")] ("comment") []
      (by rfl) (by decide) (by decide) (by decide)
  · have h := (importHolidays_error_handling 2024).2
      [[("fixed"), ("3"), ("1"), (""), ("A"), ("0")]] [] 
      [[("fixed"), ("4"), ("2"), (""), ("B"), ("0")]]
      (by intro x hx; simp at hx; rw [hx]; rfl) (by rfl)
    rw [show ([[("fixed"), ("3"), ("1"), (""), ("A"), ("0")]] ++ [] ::
        [[("fixed"), ("4"), ("2"), (""), ("B"), ("0")]]) =
      [[("fixed"), ("3"), ("1"), (""), ("A"), ("0")], [],
       [("fixed"), ("4"), ("2"), (""), ("B"), ("0")]] from rfl] at h
    rw [h]
    rfl

inductive HeaderPlacementEnum
  | TOP
  | LEFT
  | LEFT_ALIGNED
deriving DecidableEq, Repr

/-- One call against the host drawing surface / scripter API, in the
order `createCalendar` issues them. -/
inductive Effect
  | newDocDialog
  | getUnit
  | setUnit (unit : Nat)
  | defineColor (nm : String)
  | setBaseLine
  | createLineStyle (nm : String)
  | createLayer (nm : String)
  | createCharStyle (nm : String)
  | createParagraphStyle (nm : String)
  | progressSet (run : Nat)
  | monthPage (idx : Int)
deriving DecidableEq, Repr

/-- The constructor state of `ScMonthCalendar` that `createCalendar`
consults, plus the environment answers (`haveDoc()`, the result of
`newDocDialog()`). -/
structure CalConfig where
  miniCals : Bool
  headerPlacement : HeaderPlacementEnum
  promptNewDoc : Bool
  haveDoc : Bool
  newDocAccepted : Bool
  drawMoons : Bool
  drawHolidays : Bool
  drawImg : Bool
  showProgress : Bool
  months : List Int

/-- The scripter calls `setupDocVariables` makes, in order:
colour definitions, baseline, the four line styles, the layers. -/
def setupDocEffects (cfg : CalConfig) (colorNames : List String) : List Effect :=
  [Effect.defineColor ("Black"), Effect.defineColor ("White")]
    ++ colorNames.map Effect.defineColor
    ++ [Effect.setBaseLine,
        Effect.createLineStyle ("grid_Line_Style"),
        Effect.createLineStyle ("grid_MonthHeading_Style"),
        Effect.createLineStyle ("grid_DayNames_Style"),
        Effect.createLineStyle ("grid_WeekNo_Style"),
        Effect.createLayer ("Calendar")]
    ++ (if cfg.drawMoons then [Effect.createLayer ("Moons")] else [])
    ++ (if cfg.drawHolidays then [Effect.createLayer ("Holidays")] else [])
    ++ (if cfg.drawImg then [Effect.createLayer ("Images")] else [])

/-- The seven character styles and nine paragraph styles
`createCalendar` registers after `setupDocVariables`. -/
def styleEffects : List Effect :=
  [Effect.createCharStyle ("char_style_MonthHeading"),
   Effect.createCharStyle ("char_style_DayNames"),
   Effect.createCharStyle ("char_style_WeekNo"),
   Effect.createCharStyle ("char_style_Moons"),
   Effect.createCharStyle ("char_style_Holidays"),
   Effect.createCharStyle ("char_style_Date"),
   Effect.createCharStyle ("char_style_Mini"),
   Effect.createParagraphStyle ("par_style_MonthHeading"),
   Effect.createParagraphStyle ("par_style_DayNames"),
   Effect.createParagraphStyle ("par_style_WeekNo"),
   Effect.createParagraphStyle ("par_style_Moons"),
   Effect.createParagraphStyle ("par_style_Holidays"),
   Effect.createParagraphStyle ("par_style_Date"),
   Effect.createParagraphStyle ("par_style_Week_5_Date"),
   Effect.createParagraphStyle ("par_style_Week_6_Date"),
   Effect.createParagraphStyle ("par_style_Mini")]

/-- The per-month loop: progress tick then the month's page. -/
def monthEffects (cfg : CalConfig) : List Effect :=
  (cfg.months.enum.map (fun p =>
    (if cfg.showProgress then [Effect.progressSet (p.1 + 1)] else [])
      ++ [Effect.monthPage p.2])).flatten

/-- `ScMonthCalendar.createCalendar` as a trace of host calls plus an
optional failure string (its Python return value).  The mini-calendar
check is the first statement of the method, before `newDocDialog`,
`setUnit`, `setupDocVariables` and every style/layer/colour call. -/
def createCalendar (cfg : CalConfig) (colorNames : List String) :
    List Effect × Option String :=
  if cfg.miniCals ∧ cfg.headerPlacement ≠ HeaderPlacementEnum.TOP then
    ([], some ("Mini calendars are only supported for top header placement"))
  else
    let prompt := cfg.promptNewDoc ∨ ¬ cfg.haveDoc
    if prompt ∧ ¬ cfg.newDocAccepted then
      ([Effect.newDocDialog], some ("Create a new document first, please"))
    else
      ((if prompt then [Effect.newDocDialog] else [])
        ++ [Effect.getUnit, Effect.setUnit 0]
        ++ setupDocEffects cfg colorNames
        ++ styleEffects
        ++ monthEffects cfg
        ++ [Effect.setUnit 1], none)

/-- C9: whenever mini-calendars are requested and the header placement is
not TOP, `createCalendar` returns the descriptive failure immediately
with an EMPTY trace: no page, layer, colour, style or text-frame call is
issued, so the document is untouched for this failure class. -/
theorem createCalendar_miniCals_abort (cfg : CalConfig) (colorNames : List String)
    (hm : cfg.miniCals = true) (hp : cfg.headerPlacement ≠ HeaderPlacementEnum.TOP) :
    createCalendar cfg colorNames =
      ([], some ("Mini calendars are only supported for top header placement")) := by
  simp only [createCalendar]
  rw [if_pos ⟨by simp [hm], hp⟩]

/-- C9 witness: mini-calendars with LEFT header placement abort with an
empty trace. -/
theorem createCalendar_miniCals_abort_witness :
    createCalendar
        ⟨true, HeaderPlacementEnum.LEFT, true, false, true, true, true, true, true, [0, 1]⟩
        [("fillDate")] =
      ([], some ("Mini calendars are only supported for top header placement")) :=
  createCalendar_miniCals_abort _ _ rfl (by decide)

/-- A CMYK quadruple of 0-255 integers. -/
def CMYK := Int × Int × Int × Int
deriving instance DecidableEq, Repr for CMYK

def WHITE_CMYK : CMYK := (0, 0, 0, 0)
def BLACK_CMYK : CMYK := (0, 0, 0, 255)
def DARK_GREY_CMYK : CMYK := (0, 0, 0, 200)
def MIDDLE_GREY_CMYK : CMYK := (0, 0, 0, 128)
def LIGHT_GREY_CMYK : CMYK := (0, 0, 0, 21)
def RED_CMYK : CMYK := (0, 234, 246, 0)

/-- The Python `dict` of colour roles as its lookup function. -/
def ColorsMap := String → Option CMYK

/-- `d[k] = v`. -/
def dsetItem (mp : ColorsMap) (k : String) (v : CMYK) : ColorsMap :=
  fun r => if r = k then some v else mp r

/-- `d.pop(k)`. -/
def dpopItem (mp : ColorsMap) (k : String) : ColorsMap :=
  fun r => if r = k then none else mp r

/-- `ColorScheme.__init__`: the default colour scheme, as a lookup map. -/
def defaultColors : ColorsMap := fun r =>
  if r = "fillMonthHeading" then some WHITE_CMYK
  else if r = "txtMonthHeading" then some BLACK_CMYK
  else if r = "fillDayNames" then some DARK_GREY_CMYK
  else if r = "txtDayNames" then some WHITE_CMYK
  else if r = "txtDayNamesWeekend" then some WHITE_CMYK
  else if r = "fillWeekNo" then some DARK_GREY_CMYK
  else if r = "txtWeekNo" then some WHITE_CMYK
  else if r = "fillDate" then some WHITE_CMYK
  else if r = "txtDate" then some BLACK_CMYK
  else if r = "txtDate2" then some MIDDLE_GREY_CMYK
  else if r = "fillWeekend" then some LIGHT_GREY_CMYK
  else if r = "fillWeekend2" then some LIGHT_GREY_CMYK
  else if r = "txtWeekend" then some DARK_GREY_CMYK
  else if r = "txtWeekend2" then some (0, 0, 0, 96)
  else if r = "fillHoliday" then some LIGHT_GREY_CMYK
  else if r = "txtHoliday" then some RED_CMYK
  else if r = "fillSpecialDate" then some WHITE_CMYK
  else if r = "txtSpecialDate" then some MIDDLE_GREY_CMYK
  else if r = "gridColor" then some MIDDLE_GREY_CMYK
  else if r = "gridMonthHeading" then some WHITE_CMYK
  else if r = "gridDayNames" then some MIDDLE_GREY_CMYK
  else if r = "gridWeekNo" then some MIDDLE_GREY_CMYK
  else none

/-- The `monthCustomNames` list of
`ColorScheme.coloredWeekendsHolidaysHeader`. -/
def monthCustomNames : List String :=
  ["txtDate2", "txtWeekend", "txtWeekend2", "txtHoliday", "txtSpecialDate",
   "txtDayNamesWeekend", "fillMonthHeading"]

/-- The `{mainColor, lightColor}` pair of the per-month palette. -/
structure MonthColor where
  mainColor : CMYK
  lightColor : CMYK

/-- `ColorScheme.coloredWeekendsHolidaysHeader(monthColors)`: default
scheme, heading text switched to white, seven roles promoted to twelve
month-suffixed keys each, bare promoted keys popped. -/
def coloredWeekendsHolidaysHeader (monthColors : Int → MonthColor) : ColorsMap :=
  let base := dsetItem defaultColors ("txtMonthHeading") WHITE_CMYK
  let withMonths := (List.range 12).foldl (fun acc i =>
    let month : Int := (i : Int) + 1
    let a1 := dsetItem acc ("txtWeekend-m" ++ toString month) (monthColors month).mainColor
    let a2 := dsetItem a1 ("txtDayNamesWeekend-m" ++ toString month)
      (monthColors month).mainColor
    let a3 := dsetItem a2 ("txtHoliday-m" ++ toString month) (monthColors month).mainColor
    let a4 := dsetItem a3 ("fillMonthHeading-m" ++ toString month)
      (monthColors month).mainColor
    let a5 := dsetItem a4 ("txtWeekend2-m" ++ toString month) (monthColors month).lightColor
    let a6 := dsetItem a5 ("txtDate2-m" ++ toString month)
      ((a5 ("txtDate2")).getD WHITE_CMYK)
    dsetItem a6 ("txtSpecialDate-m" ++ toString month)
      ((a6 ("txtSpecialDate")).getD WHITE_CMYK)) base
  monthCustomNames.foldl (fun acc nm => dpopItem acc nm) withMonths

/-- A concrete palette for the closed counterexample. -/
def mcRed : Int → MonthColor := fun _ => MonthColor.mk RED_CMYK LIGHT_GREY_CMYK

/-- C10 counterexample: `txtMonthHeading` is NOT in the promoted list yet
`coloredWeekendsHolidaysHeader` changes it from the default black to
white, so not every non-promoted role is left unchanged. -/
theorem coloredWeekendsHolidaysHeader_changes_heading :
    coloredWeekendsHolidaysHeader mcRed ("txtMonthHeading") = some WHITE_CMYK ∧
      defaultColors ("txtMonthHeading") = some BLACK_CMYK ∧
      ¬ coloredWeekendsHolidaysHeader mcRed ("txtMonthHeading")
          = defaultColors ("txtMonthHeading") := by
  refine ⟨by rfl, by rfl, by decide⟩

/-- The default-scheme roles that are neither promoted to per-month keys
nor the separately recoloured `txtMonthHeading`. -/
def nonPromotedRoles : List String :=
  ["fillDayNames", "txtDayNames", "fillWeekNo", "txtWeekNo", "fillDate", "txtDate",
   "fillWeekend", "fillWeekend2", "fillHoliday", "fillSpecialDate",
   "gridColor", "gridMonthHeading", "gridDayNames", "gridWeekNo"]

def monthList12 : List Int := [1, 2, 3, 4, 5, 6, 7, 8, 9, 10, 11, 12]

/-- C10 amended: for every palette, `coloredWeekendsHolidaysHeader`
leaves every role outside promoted-list ∪ {txtMonthHeading} unchanged
from the default scheme (in particular `fillDate` and `txtDate`),
switches `txtMonthHeading` to white, keeps NO bare key for any promoted
role, and provides each promoted role under all twelve month-suffixed
keys. -/
theorem coloredWeekendsHolidaysHeader_spec (monthColors : Int → MonthColor) :
    (∀ r ∈ nonPromotedRoles,
      coloredWeekendsHolidaysHeader monthColors r = defaultColors r) ∧
    coloredWeekendsHolidaysHeader monthColors ("txtMonthHeading") = some WHITE_CMYK ∧
    (∀ nm ∈ monthCustomNames, coloredWeekendsHolidaysHeader monthColors nm = none) ∧
    (∀ nm ∈ monthCustomNames, ∀ i ∈ monthList12,
      (coloredWeekendsHolidaysHeader monthColors (nm ++ "-m" ++ toString i)).isSome) := by
  refine ⟨?_, by rfl, ?_, ?_⟩
  · intro r hr
    fin_cases hr <;> rfl
  · intro nm hnm
    fin_cases hnm <;> rfl
  · intro nm hnm
    fin_cases hnm <;> (intro i hi; fin_cases hi <;> rfl)

/-- C10 witness: at the concrete red palette, `fillDate` keeps its
default, the bare `txtWeekend` key is gone and `txtWeekend-m1` exists. -/
theorem coloredWeekendsHolidaysHeader_spec_witness :
    coloredWeekendsHolidaysHeader mcRed ("fillDate") = defaultColors ("fillDate") ∧
      coloredWeekendsHolidaysHeader mcRed ("txtWeekend") = none ∧
      (coloredWeekendsHolidaysHeader mcRed ("txtWeekend" ++ "-m" ++ toString (1 : Int))).isSome :=
  ⟨(coloredWeekendsHolidaysHeader_spec mcRed).1 ("fillDate") (by simp [nonPromotedRoles]),
    (coloredWeekendsHolidaysHeader_spec mcRed).2.2.1 ("txtWeekend") (by simp [monthCustomNames]),
    (coloredWeekendsHolidaysHeader_spec mcRed).2.2.2 ("txtWeekend") (by simp [monthCustomNames])
      1 (by simp [monthList12])⟩
